import Mathlib

/-!
Shallow embedding of the rx renderer synchronization layer (src/wgpu.rs):
the effect-propagation protocol between the session and the renderer, the
view/snapshot resource lifecycle (dirty vs. damaged reconciliation), the
staging/final compositing model and the paste buffer.  Session-side data
that the renderer consumes (views, effects, the resource manager) is
declared outside the provided sources and is modelled from the spec.

GPU rasterization of shape batches is opaque: render passes are recorded
as structured trace events (pass kind, target, draw list) rather than as
pixel transformations.  Direct pixel operations submitted by the renderer
(`Op::Clear`, `Op::Transfer`, `Op::Fill`, `Op::Blit`) are interpreted on
framebuffer pixel grids, since the resize/damage claims are about exactly
those pixels.
-/

namespace Rx

/-- Pixel color values are opaque machine words; `0` is fully transparent
(`Rgba8::TRANSPARENT` and `Bgra8::TRANSPARENT` are both all-zero).  The
rgba/bgra channel reordering done by `into_bgra8` is a bijection on channel
order and is abstracted to the identity on opaque color values. -/
abbrev Color := Nat

/-- The fully transparent color. -/
def transparent : Color := 0

/-- Opaque brush-stroke shape (`shape2d::Shape`). -/
abbrev Shape := Nat

/-- View identifier (`ViewId`). -/
abbrev ViewId := Nat

/-- A panic message (a Rust `expect`/`panic!` aborts the tick). -/
abbrev Panic := String

/-- A fallible renderer step: either a panic or a result. -/
abbrev Fallible (α : Type) := Except Panic α

/-- Modelled from the spec: the extent of a view (its pixel dimensions),
recorded alongside snapshots (`View::extent`, declared outside src/). -/
structure Extent where
  w : Nat
  h : Nat
deriving DecidableEq, Repr

/-- An axis-aligned rectangle (`rgx::rect::Rect<i32>`). -/
structure Rect where
  x1 : Int
  y1 : Int
  x2 : Int
  y2 : Int
deriving DecidableEq, Repr

/-- `Rect::origin(w, h)`: a rectangle anchored at the origin. -/
def Rect.origin (w h : Int) : Rect := ⟨0, 0, w, h⟩

/-- `Rect::width` as a natural number. -/
def Rect.w (r : Rect) : Nat := (r.x2 - r.x1).toNat

/-- `Rect::height` as a natural number. -/
def Rect.h (r : Rect) : Nat := (r.y2 - r.y1).toNat

/-- Modelled from the spec: a Snapshot is an immutable-once-written pixel
buffer (width, height) owned by the Resource Manager (resources.rs is not
under src/).  Pixels are a total function; only coordinates inside the
extent are meaningful. -/
structure Snapshot where
  extent : Extent
  pixels : Nat → Nat → Color

/-- Snapshot width. -/
def Snapshot.width (s : Snapshot) : Nat := s.extent.w

/-- Snapshot height. -/
def Snapshot.height (s : Snapshot) : Nat := s.extent.h

/-- Association-list lookup on view ids (embeds `BTreeMap::get` /
`ViewManager::get`). -/
def lookupKey {α : Type} (id : ViewId) : List (ViewId × α) → Option α
  | [] => none
  | p :: rest => if p.1 = id then some p.2 else lookupKey id rest

/-- Association-list insert-or-replace on view ids (embeds
`BTreeMap::insert`). -/
def insertKey {α : Type} (id : ViewId) (a : α) (l : List (ViewId × α)) :
    List (ViewId × α) :=
  (id, a) :: l.filter fun p => p.1 != id

/-- Association-list removal on view ids (embeds `BTreeMap::remove`). -/
def removeKey {α : Type} (id : ViewId) (l : List (ViewId × α)) :
    List (ViewId × α) :=
  l.filter fun p => p.1 != id

/-- Modelled from the spec: the Resource Manager owns, per view id, the
snapshot history with the current snapshot at the head (resources.rs is
not under src/).  `lock`/`lock_mut` scoped access is, in this
single-threaded embedding, plain scoped application. -/
structure Resources where
  views : List (ViewId × List Snapshot)

/-- Modelled from the spec: `get_snapshot(id)` returns the most recent
snapshot for the view; a missing view or empty history is a fatal
programming error in the source. -/
def Resources.get_snapshot (rs : Resources) (id : ViewId) : Option Snapshot :=
  match lookupKey id rs.views with
  | some (s :: _) => some s
  | _ => none

/-- Modelled from the spec: `get_snapshot_rect(id, rect)` returns a
bounds-clamped sub-copy of the current snapshot: pixel `(x, y)` of the
result is snapshot pixel `(rect.x1 + x, rect.y1 + y)` when that lies in
both the rect and the snapshot extent, and transparent otherwise. -/
def Resources.get_snapshot_rect (rs : Resources) (id : ViewId) (rect : Rect) :
    Fallible (Nat → Nat → Color) :=
  match rs.get_snapshot id with
  | none => .error "resource manager: no snapshot for view"
  | some s =>
      .ok fun x y =>
        let sx := rect.x1.toNat + x
        let sy := rect.y1.toNat + y
        if x < rect.w ∧ y < rect.h ∧ sx < s.width ∧ sy < s.height then
          s.pixels sx sy
        else transparent

/-- Modelled from the spec: `push_snapshot(pixels, extent)` appends a new
snapshot as the current head of the view's history; a missing view id is
left untouched (the readback callback guards with `get_view_mut`). -/
def Resources.push_snapshot (rs : Resources) (id : ViewId)
    (pixels : Nat → Nat → Color) (extent : Extent) : Resources :=
  ⟨rs.views.map fun p =>
    if p.1 = id then (p.1, Snapshot.mk extent pixels :: p.2) else p⟩

/-- Modelled from the spec: `lock_mut` gives scoped exclusive write access;
in this single-threaded embedding it is scoped application of the writer. -/
def Resources.lock_mut (rs : Resources) (f : Resources → Resources) :
    Resources :=
  f rs

/-- The snapshot-readback callback submitted after presenting a frame with
a dirty active view (wgpu.rs lines 513-517): under the resource manager's
write lock, push the read-back pixels as a new snapshot with the view's
extent. -/
def readback_callback (id : ViewId) (extent : Extent)
    (data : Nat → Nat → Color) (rs : Resources) : Resources :=
  rs.lock_mut fun res => res.push_snapshot id data extent

/-- A pending low-level view operation (`ViewOp`, declared in view.rs
outside src/; variants are taken from their exhaustive handling in
`handle_view_ops`). -/
inductive ViewOp where
  | clear (color : Color)
  | blit (src dst : Rect)
  | yank (src : Rect)
  | paste (dst : Rect)
deriving DecidableEq, Repr

/-- Modelled from the spec: per-view logical state (view.rs is not under
src/): pixel dimensions, the dirty and damaged flags, and the queue of
pending view operations. -/
structure View where
  id : ViewId
  width : Nat
  height : Nat
  dirty : Bool
  damaged : Bool
  ops : List ViewOp
deriving DecidableEq, Repr

/-- `View::is_dirty`. -/
def View.is_dirty (v : View) : Bool := v.dirty

/-- `View::is_damaged`. -/
def View.is_damaged (v : View) : Bool := v.damaged

/-- `View::extent`. -/
def View.extent (v : View) : Extent := ⟨v.width, v.height⟩

/-- The view manager: views keyed by id (`ViewManager`, outside src/). -/
abbrev ViewManager := List (ViewId × View)

/-- Modelled from the spec: session execution state (session.rs is not
under src/); the renderer only distinguishes `running` from the rest. -/
inductive State where
  | initializing
  | running
  | paused
  | closing
deriving DecidableEq, Repr

/-- Modelled from the spec: session input mode; the renderer distinguishes
the help screen and the visual-pasting mode (which drives the paste
preview batch in draw.rs `draw_paste`). -/
inductive Mode where
  | normal
  | help
  | visualPasting
  | visualOther
deriving DecidableEq, Repr

/-- Blending mode of the brush pipeline (`rgx::core::Blending`). -/
inductive Blending where
  | default
  | constant
deriving DecidableEq, Repr

/-- Modelled from the spec: the slice of session state read by the
renderer during a frame (session.rs is not under src/). -/
structure Session where
  state : State
  mode : Mode
  selection : Option Rect
  views : ViewManager
  active_id : ViewId
  checker : Bool
  animation : Bool
  debug : Bool
  background : Color
deriving DecidableEq, Repr

/-- `Session::active_view` resolves the active view id (a missing active
view is a fatal programming error in the source). -/
def Session.active_view (s : Session) : Option View :=
  lookupKey s.active_id s.views

/-- An effect emitted by the session for the renderer (`session::Effect`,
declared in session.rs outside src/; variants taken from their exhaustive
handling in `handle_effects`).  The f64 scale factor is opaque. -/
inductive Effect where
  | sessionResized (w h : Nat)
  | sessionScaled (scale : Nat)
  | viewActivated (id : ViewId)
  | viewAdded (id : ViewId)
  | viewRemoved (id : ViewId)
  | viewTouched (id : ViewId)
  | viewDamaged (id : ViewId)
  | viewBlendingChanged (b : Blending)
  | viewPaintDraft (shapes : List Shape)
  | viewPaintFinal (shapes : List Shape)
deriving DecidableEq, Repr

/-- A GPU framebuffer: a texture of the given size.  Pixels are a total
function; only coordinates inside the bounds are meaningful. -/
structure Framebuffer where
  width : Nat
  height : Nat
  pixels : Nat → Nat → Color

/-- `Op::Clear(fb, color)`: every pixel set to `color`. -/
def Framebuffer.clear (fb : Framebuffer) (c : Color) : Framebuffer :=
  { fb with pixels := fun _ _ => c }

/-- `Op::Fill(fb, pixels)`: the whole framebuffer replaced by `tex`. -/
def Framebuffer.fill (fb : Framebuffer) (tex : Nat → Nat → Color) :
    Framebuffer :=
  { fb with pixels := tex }

/-- `Op::Transfer(fb, texels, tw, th, Rect::origin(tw, th))`: the origin
rectangle `[0,tw) × [0,th)` replaced by `tex`, the rest untouched. -/
def Framebuffer.transfer (fb : Framebuffer) (tex : Nat → Nat → Color)
    (tw th : Nat) : Framebuffer :=
  { fb with pixels := fun x y =>
      if x < tw ∧ y < th then tex x y else fb.pixels x y }

/-- `Op::Blit(fb, src, dst)`: the `dst` rectangle replaced by the contents
of the `src` rectangle, the rest untouched. -/
def Framebuffer.blit (fb : Framebuffer) (src dst : Rect) : Framebuffer :=
  { fb with pixels := fun x y =>
      if x < dst.w ∧ y < dst.h ∧ dst.x1.toNat + x < fb.width ∧
          dst.y1.toNat + y < fb.height then
        fb.pixels (src.x1.toNat + x) (src.y1.toNat + y)
      else fb.pixels x y }

/-- Per-view GPU resources (`ViewData`): the display framebuffer, the
staging framebuffer, the view quad vertex buffer, and the texture/sampler
bindings.  GPU resource identities (`vb`, `binding`, `staging_binding`,
`anim_binding`) are modelled as ids drawn from the renderer's fresh-id
counter, so re-creation is observable. -/
structure ViewData where
  fb : Framebuffer
  staging_fb : Framebuffer
  vb : Nat
  binding : Nat
  staging_binding : Nat
  anim_binding : Nat

/-- `ViewData::new(w, h, ...)`: fresh framebuffers of size `w × h`
(contents start out as transparent texture memory) and freshly allocated
vertex buffer and bindings; returns the new data and the advanced fresh-id
counter. -/
def ViewData.new (w h : Nat) (next : Nat) : ViewData × Nat :=
  ({ fb := ⟨w, h, fun _ _ => transparent⟩
   , staging_fb := ⟨w, h, fun _ _ => transparent⟩
   , vb := next
   , binding := next + 1
   , staging_binding := next + 2
   , anim_binding := next + 3 }, next + 4)

/-- A paste output: the vertex buffer built by `ViewOp::Paste` from the
paste-texture rectangle and the destination rect (`sprite2d::Batch::
singleton(...).finish(...)`). -/
structure PasteOutput where
  tex_w : Nat
  tex_h : Nat
  dst : Rect
deriving DecidableEq, Repr

/-- The shared paste buffer (`Paste`): texture, binding, pending output
quads, and the ready flag guarding same-frame texture resizes. -/
structure Paste where
  tex_w : Nat
  tex_h : Nat
  tex_pixels : Nat → Nat → Color
  binding : Nat
  outputs : List PasteOutput
  ready : Bool

/-- The renderer state (`Renderer` in wgpu.rs) restricted to the fields
the synchronization layer reads or writes.  Pipelines, samplers, fonts,
cursors and the transform cache are GPU-opaque and carry no claim-relevant
state. -/
structure Renderer where
  win_w : Nat
  win_h : Nat
  scale : Nat
  swap_w : Nat
  swap_h : Nat
  screen_fb : Framebuffer
  resources : Resources
  view_data : List (ViewId × ViewData)
  paste : Paste
  final_batch : List Shape
  staging_batch : List Shape
  blending : Blending
  next_id : Nat

/-- `Renderer::handle_scaled`: re-create the screen framebuffer at the
scaled window size (f64 division abstracted to Nat division). -/
def Renderer.handle_scaled (r : Renderer) (scale : Nat) : Renderer :=
  { r with
    screen_fb := ⟨r.win_w / scale, r.win_h / scale, fun _ _ => transparent⟩
    scale := scale }

/-- `Renderer::handle_resized`: re-create the swap chain at the new size,
record the window size, and re-apply the current scale. -/
def Renderer.handle_resized (r : Renderer) (w h : Nat) : Renderer :=
  Renderer.handle_scaled
    { r with swap_w := w, swap_h := h, win_w := w, win_h := h } r.scale

/-- `Renderer::add_views` for a single id (wgpu.rs lines 691-708): create
view data at the current snapshot's size, clear both framebuffers to
transparent, fill the display framebuffer with the snapshot pixels, and
insert the data into the view-data map. -/
def Renderer.add_view (r : Renderer) (id : ViewId) : Fallible Renderer :=
  match r.resources.get_snapshot id with
  | none => .error "resource manager: no snapshot for view"
  | some s =>
      let (vd, next) := ViewData.new s.width s.height r.next_id
      let vd := { vd with
        fb := (vd.fb.clear transparent).fill s.pixels
        staging_fb := vd.staging_fb.clear transparent }
      .ok { r with view_data := insertKey id vd r.view_data, next_id := next }

/-- `Renderer::handle_view_dirty` (wgpu.rs lines 579-641): if the GPU
framebuffer size differs from the view's logical size, re-create the view
resources, clear both new framebuffers to transparent, and transfer the
`min(snapshot, view)`-overlap rectangle from the current snapshot;
otherwise, if the view is damaged, fill the existing framebuffer wholesale
with the current snapshot's pixels. -/
def Renderer.handle_view_dirty (r : Renderer) (v : View) : Fallible Renderer :=
  match lookupKey v.id r.view_data with
  | none => .error "views must have associated view data"
  | some vd =>
      let vw := v.width
      let vh := v.height
      if vd.fb.width ≠ vw ∨ vd.fb.height ≠ vh then
        match r.resources.get_snapshot v.id with
        | none => .error "resource manager: no snapshot for view"
        | some s =>
            let (vd2, next) := ViewData.new vw vh r.next_id
            let tw := min s.width vw
            let th := min s.height vh
            match r.resources.get_snapshot_rect v.id
                (Rect.origin (tw : Int) (th : Int)) with
            | .error e => .error e
            | .ok texels =>
                let vd2 := { vd2 with
                  fb := ((vd2.fb.clear transparent).transfer texels tw th)
                  staging_fb := vd2.staging_fb.clear transparent }
                .ok { r with
                  view_data := insertKey v.id vd2 r.view_data
                  next_id := next }
      else if v.is_damaged then
        match r.resources.get_snapshot v.id with
        | none => .error "resource manager: no snapshot for view"
        | some s =>
            .ok { r with
              view_data :=
                insertKey v.id { vd with fb := vd.fb.fill s.pixels }
                  r.view_data }
      else .ok r

/-- One step of `Renderer::handle_effects`' match (wgpu.rs lines 548-575). -/
def Renderer.handle_effect (r : Renderer) (views : ViewManager) :
    Effect → Fallible Renderer
  | .sessionResized w h => .ok (r.handle_resized w h)
  | .sessionScaled scale => .ok (r.handle_scaled scale)
  | .viewActivated _ => .ok r
  | .viewAdded id => r.add_view id
  | .viewRemoved id => .ok { r with view_data := removeKey id r.view_data }
  | .viewTouched id =>
      match lookupKey id views with
      | none => .error "view must exist"
      | some v => r.handle_view_dirty v
  | .viewDamaged id =>
      match lookupKey id views with
      | none => .error "view must exist"
      | some v => r.handle_view_dirty v
  | .viewBlendingChanged b => .ok { r with blending := b }
  | .viewPaintDraft shapes =>
      .ok { r with staging_batch := r.staging_batch ++ shapes }
  | .viewPaintFinal shapes =>
      .ok { r with final_batch := r.final_batch ++ shapes }

/-- `Renderer::handle_effects`: drain the effect sequence front to back,
applying each effect once, in order. -/
def Renderer.handle_effects (r : Renderer) (views : ViewManager) :
    List Effect → Fallible Renderer
  | [] => .ok r
  | e :: rest =>
      match r.handle_effect views e with
      | .error msg => .error msg
      | .ok r2 => r2.handle_effects views rest

/-- The mutable state threaded through `Renderer::handle_view_ops`: the
view's framebuffer (borrowed for `Clear`/`Blit` submissions), the paste
buffer, and the fresh-id counter (for paste texture/binding re-creation). -/
structure OpState where
  fb : Framebuffer
  paste : Paste
  next_id : Nat

/-- One arm of `Renderer::handle_view_ops`' match (wgpu.rs lines 650-687). -/
def step_view_op (rs : Resources) (id : ViewId) (st : OpState) :
    ViewOp → Fallible OpState
  | .clear color => .ok { st with fb := st.fb.clear color }
  | .blit src dst => .ok { st with fb := st.fb.blit src dst }
  | .yank src =>
      match rs.get_snapshot_rect id src with
      | .error e => .error e
      | .ok pixels =>
          let w := src.w
          let h := src.h
          let p := st.paste
          let (p, next) :=
            if p.tex_w ≠ w ∨ p.tex_h ≠ h then
              ({ p with
                 ready := false
                 tex_w := w
                 tex_h := h
                 binding := st.next_id }, st.next_id + 1)
            else (p, st.next_id)
          .ok { st with
            paste := { p with tex_pixels := pixels }
            next_id := next }
  | .paste dst =>
      .ok { st with
        paste := { st.paste with
          outputs :=
            st.paste.outputs ++ [⟨st.paste.tex_w, st.paste.tex_h, dst⟩] } }

/-- The loop body of `Renderer::handle_view_ops` over the queued ops. -/
def run_view_ops (rs : Resources) (id : ViewId) (st : OpState) :
    List ViewOp → Fallible OpState
  | [] => .ok st
  | op :: rest =>
      match step_view_op rs id st op with
      | .error e => .error e
      | .ok st2 => run_view_ops rs id st2 rest

/-- `Renderer::handle_view_ops` (wgpu.rs lines 643-689): look up the
view's data (a missing entry is fatal) and drain the view's op queue, in
order. -/
def Renderer.handle_view_ops (r : Renderer) (v : View) : Fallible Renderer :=
  match lookupKey v.id r.view_data with
  | none => .error "views must have associated view data"
  | some vd =>
      match run_view_ops r.resources v.id ⟨vd.fb, r.paste, r.next_id⟩ v.ops with
      | .error e => .error e
      | .ok st =>
          .ok { r with
            view_data := insertKey v.id { vd with fb := st.fb } r.view_data
            paste := st.paste
            next_id := st.next_id }

/-- The view-op loop of `Renderer::frame` (wgpu.rs lines 320-325): for
each session view with a non-empty op queue, handle its ops. -/
def Renderer.handle_all_view_ops (r : Renderer) :
    List (ViewId × View) → Fallible Renderer
  | [] => .ok r
  | (_, v) :: rest =>
      match (if v.ops.isEmpty then .ok r else r.handle_view_ops v :
          Fallible Renderer) with
      | .error e => .error e
      | .ok r2 => r2.handle_all_view_ops rest

/-- Where a render pass draws (framebuffer targets and the swap chain). -/
inductive Target where
  | stagingFb (id : ViewId)
  | viewFb (id : ViewId)
  | screenFb
  | swapChain
deriving DecidableEq, Repr

/-- How a render pass begins: `PassOp::Clear(color)` wipes the target to
the given color first, `PassOp::Load` keeps the target's existing
contents. -/
inductive PassKind where
  | clear (c : Color)
  | load
deriving DecidableEq, Repr

/-- A draw issued inside a render pass.  Brush strokes and paste outputs
carry their claim-relevant payloads; the UI-glue draws are opaque tags. -/
inductive Draw where
  | brushStrokes (shapes : List Shape) (b : Blending)
  | pasteStaging
  | pasteOutput (out : PasteOutput)
  | checker
  | views
  | ui
  | text
  | tool
  | animations
  | help
  | screen
  | overlay
  | cursor
deriving DecidableEq, Repr

/-- A recorded render pass: how it begins, where it draws, what it draws,
in order. -/
structure Pass where
  kind : PassKind
  target : Target
  draws : List Draw
deriving DecidableEq, Repr

/-- A claim-relevant event of one `Renderer::frame` call, in submission
order.  `readback id extent` is the asynchronous snapshot readback
scheduled on the view framebuffer, whose completion (on a later tick)
applies `readback_callback id extent` to the resource manager.
`screenReadback` is the execution recorder's capture of the screen
framebuffer. -/
inductive FrameEvent where
  | pass (p : Pass)
  | present
  | readback (id : ViewId) (extent : Extent)
  | screenReadback
deriving DecidableEq, Repr

/-- Whether draw.rs `draw_paste` emits a paste-preview quad this frame:
only in visual-pasting mode with a selection. -/
def paste_preview (s : Session) : Bool :=
  decide (s.mode = Mode.visualPasting) && s.selection.isSome

/-- The pass-building tail of `Renderer::frame` (wgpu.rs lines 351-524),
once effects and view ops have been handled and the active view's data
resolved: record the staging pass (always clearing), the final pass
(loading, draining the paste outputs), the screen pass, the present pass,
the presentation, and the conditional readbacks. -/
def Renderer.composite (r : Renderer) (s : Session) (v : View)
    (exec_normal : Bool) : Renderer × List FrameEvent :=
  let preview := paste_preview s
  let pasteDraw := if preview && r.paste.ready then [Draw.pasteStaging] else []
  let ready2 := if preview then true else r.paste.ready
  let staging_pass : Pass :=
    ⟨PassKind.clear transparent, Target.stagingFb v.id,
      (if r.staging_batch.isEmpty then []
       else [Draw.brushStrokes r.staging_batch Blending.default]) ++
        pasteDraw⟩
  let final_pass : Pass :=
    ⟨PassKind.load, Target.viewFb v.id,
      (if r.final_batch.isEmpty then []
       else [Draw.brushStrokes r.final_batch r.blending]) ++
        r.paste.outputs.map Draw.pasteOutput⟩
  let screen_pass : Pass :=
    ⟨PassKind.clear transparent, Target.screenFb,
      (if s.checker then [Draw.checker] else []) ++
        [Draw.views, Draw.ui, Draw.text, Draw.tool] ++
        (if s.animation then [Draw.animations] else []) ++
        (if decide (s.mode = Mode.help) then [Draw.help] else [])⟩
  let present_pass : Pass :=
    ⟨PassKind.clear s.background, Target.swapChain,
      [Draw.screen] ++
        (if s.debug || !exec_normal then [Draw.overlay] else []) ++
        [Draw.cursor]⟩
  let r2 := { r with paste := { r.paste with outputs := [], ready := ready2 } }
  (r2,
    [FrameEvent.pass staging_pass, FrameEvent.pass final_pass,
     FrameEvent.pass screen_pass, FrameEvent.pass present_pass,
     FrameEvent.present] ++
      (if v.is_dirty then [FrameEvent.readback v.id v.extent] else []) ++
      (if exec_normal then [] else [FrameEvent.screenReadback]))

/-- The stages of `Renderer::frame` after the effects are handled: handle
queued view ops, resolve the active view and its view data (both fatal if
missing), then build and submit the passes. -/
def Renderer.after_effects (s : Session) (exec_normal : Bool)
    (r2 : Renderer) : Fallible (Renderer × List FrameEvent) :=
  match r2.handle_all_view_ops s.views with
  | .error e => .error e
  | .ok r3 =>
      match s.active_view with
      | none => .error "session must have an active view"
      | some v =>
          match lookupKey v.id r3.view_data with
          | none => .error "the view data for the active view must exist"
          | some _ => .ok (r3.composite s v exec_normal)

/-- `Renderer::frame` (wgpu.rs lines 294-525): return immediately unless
the session is running; otherwise clear both shape batches, handle this
tick's effects, and run the remaining stages. -/
def Renderer.frame (r : Renderer) (s : Session) (effects : List Effect)
    (exec_normal : Bool) : Fallible (Renderer × List FrameEvent) :=
  if s.state ≠ State.running then .ok (r, [])
  else
    match
      Renderer.handle_effects
        { r with staging_batch := [], final_batch := [] } s.views effects with
    | .error e => .error e
    | .ok r2 => r2.after_effects s exec_normal

/-- The draft shapes carried by a tick's effects, in order
(`ViewPaintDraft` payloads concatenated). -/
def draft_shapes : List Effect → List Shape
  | [] => []
  | .viewPaintDraft sh :: rest => sh ++ draft_shapes rest
  | _ :: rest => draft_shapes rest

/-- The committed shapes carried by a tick's effects, in order
(`ViewPaintFinal` payloads concatenated). -/
def final_shapes : List Effect → List Shape
  | [] => []
  | .viewPaintFinal sh :: rest => sh ++ final_shapes rest
  | _ :: rest => final_shapes rest

/-- The brush-stroke shapes in a draw list, in order. -/
def draws_brush_shapes : List Draw → List Shape
  | [] => []
  | .brushStrokes sh _ :: rest => sh ++ draws_brush_shapes rest
  | _ :: rest => draws_brush_shapes rest

/-- The paste outputs in a draw list, in order. -/
def draws_paste_outputs : List Draw → List PasteOutput
  | [] => []
  | .pasteOutput o :: rest => o :: draws_paste_outputs rest
  | _ :: rest => draws_paste_outputs rest

/-- The brush-stroke shapes drawn by a pass, in order. -/
def Pass.brush_shapes (p : Pass) : List Shape :=
  draws_brush_shapes p.draws

/-- The paste outputs drawn by a pass, in order. -/
def Pass.paste_draws (p : Pass) : List PasteOutput :=
  draws_paste_outputs p.draws

/-- A projection of `Renderer::frame`: just the recorded event trace. -/
def frame_trace (r : Renderer) (s : Session) (es : List Effect)
    (en : Bool) : Option (List FrameEvent) :=
  match r.frame s es en with
  | .ok (_, evs) => some evs
  | .error _ => none

/-- A projection of `Renderer::frame`: the fresh-GPU-resource counter of
the resulting renderer. -/
def frame_next_id (r : Renderer) (s : Session) (es : List Effect)
    (en : Bool) : Option Nat :=
  match r.frame s es en with
  | .ok (r2, _) => some r2.next_id
  | .error _ => none

theorem lookupKey_filter_ne {α : Type} (id id2 : ViewId)
    (l : List (ViewId × α)) (h : id2 ≠ id) :
    lookupKey id2 (l.filter fun p => p.1 != id) = lookupKey id2 l := by
  induction l with
  | nil => rfl
  | cons p rest ih =>
      by_cases hp : p.1 = id
      · have hfalse : (p.1 != id) = false := by simp [hp]
        have hne : p.1 ≠ id2 := fun hc => h (hc ▸ hp ▸ rfl)
        simp [List.filter, hfalse, lookupKey, hne, ih]
      · have htrue : (p.1 != id) = true := by simp [hp]
        simp only [List.filter, htrue, lookupKey]
        by_cases hq : p.1 = id2
        · simp [hq]
        · simp [hq, ih]

theorem lookupKey_filter_self {α : Type} (id : ViewId)
    (l : List (ViewId × α)) :
    lookupKey id (l.filter fun p => p.1 != id) = none := by
  induction l with
  | nil => rfl
  | cons p rest ih =>
      by_cases hp : p.1 = id
      · have hfalse : (p.1 != id) = false := by simp [hp]
        simp [List.filter, hfalse, ih]
      · have htrue : (p.1 != id) = true := by simp [hp]
        simp [List.filter, htrue, lookupKey, hp, ih]

theorem lookupKey_insertKey_self {α : Type} (id : ViewId) (a : α)
    (l : List (ViewId × α)) :
    lookupKey id (insertKey id a l) = some a := by
  simp [insertKey, lookupKey]

theorem lookupKey_insertKey_ne {α : Type} (id id2 : ViewId) (a : α)
    (l : List (ViewId × α)) (h : id2 ≠ id) :
    lookupKey id2 (insertKey id a l) = lookupKey id2 l := by
  have : id ≠ id2 := fun hc => h hc.symm
  simp [insertKey, lookupKey, this, lookupKey_filter_ne id id2 l h]

theorem removeKey_eq_of_lookup_none {α : Type} (id : ViewId)
    (l : List (ViewId × α)) (h : lookupKey id l = none) :
    removeKey id l = l := by
  induction l with
  | nil => rfl
  | cons p rest ih =>
      have hp : p.1 ≠ id := by
        intro hc
        simp [lookupKey, hc] at h
      have hrest : lookupKey id rest = none := by
        simpa [lookupKey, hp] using h
      have htrue : (p.1 != id) = true := by simp [hp]
      simp [removeKey, List.filter, htrue] at *
      exact ih hrest

/-- C8: processing `Effect::ViewRemoved(id)` when the renderer never
created GPU resources for `id` (no view-data entry) is a safe no-op: the
call succeeds and returns the renderer completely unchanged. -/
theorem C8_view_removed_is_noop (r : Renderer) (vm : ViewManager)
    (id : ViewId) (h : lookupKey id r.view_data = none) :
    r.handle_effect vm (Effect.viewRemoved id) = .ok r := by
  simp [Renderer.handle_effect, removeKey_eq_of_lookup_none id _ h]

/-- C10: when the session is not running, `frame` returns before doing
anything: no effect is applied, no view op handled, no batch cleared, and
no pass, presentation or readback is recorded. -/
theorem C10_frame_early_return (r : Renderer) (s : Session)
    (es : List Effect) (en : Bool) (h : s.state ≠ State.running) :
    r.frame s es en = .ok (r, []) := by
  simp [Renderer.frame, h]

/-- C1: reconciling a view whose framebuffer size differs from its logical
size re-creates the view's framebuffers, vertex buffer and bindings (fresh
GPU resource ids), clears both new framebuffers to transparent, and
transfers from the current snapshot exactly the overlap rectangle
`[0, min(sw, vw)) × [0, min(sh, vh))`: inside it the framebuffer holds the
snapshot's pixels, outside it every pixel is transparent. -/
theorem C1_resize_recreates_and_transfers_overlap
    (r : Renderer) (v : View) (vd : ViewData) (s : Snapshot)
    (hvd : lookupKey v.id r.view_data = some vd)
    (hsz : vd.fb.width ≠ v.width ∨ vd.fb.height ≠ v.height)
    (hs : r.resources.get_snapshot v.id = some s) :
    ∃ r2 vd2, r.handle_view_dirty v = .ok r2 ∧
      lookupKey v.id r2.view_data = some vd2 ∧
      vd2.fb.width = v.width ∧ vd2.fb.height = v.height ∧
      vd2.staging_fb.width = v.width ∧ vd2.staging_fb.height = v.height ∧
      vd2.vb = r.next_id ∧ vd2.binding = r.next_id + 1 ∧
      vd2.staging_binding = r.next_id + 2 ∧
      r2.next_id = r.next_id + 4 ∧
      (∀ x y, x < min s.width v.width → y < min s.height v.height →
        vd2.fb.pixels x y = s.pixels x y) ∧
      (∀ x y, ¬(x < min s.width v.width ∧ y < min s.height v.height) →
        vd2.fb.pixels x y = transparent) ∧
      (∀ x y, vd2.staging_fb.pixels x y = transparent) := by
  have hrect : r.resources.get_snapshot_rect v.id
      (Rect.origin ((min s.width v.width : Nat) : Int)
        ((min s.height v.height : Nat) : Int)) =
      .ok fun x y =>
        if x < min s.width v.width ∧ y < min s.height v.height ∧
            x < s.width ∧ y < s.height then
          s.pixels x y
        else transparent := by
    simp only [Resources.get_snapshot_rect, hs]
    refine congrArg Except.ok ?_
    funext x y
    simp [Rect.origin, Rect.w, Rect.h]
  simp only [Renderer.handle_view_dirty, hvd, if_pos hsz, ViewData.new, hs,
    hrect]
  refine ⟨_, _, rfl, lookupKey_insertKey_self _ _ _, rfl, rfl, rfl, rfl, rfl,
    rfl, rfl, rfl, ?_, ?_, ?_⟩
  · intro x y hx hy
    have hxs : x < s.width := lt_of_lt_of_le hx (Nat.min_le_left _ _)
    have hys : y < s.height := lt_of_lt_of_le hy (Nat.min_le_left _ _)
    have hxv : x < v.width := lt_of_lt_of_le hx (Nat.min_le_right _ _)
    have hyv : y < v.height := lt_of_lt_of_le hy (Nat.min_le_right _ _)
    simp [Framebuffer.transfer, Framebuffer.clear, hx, hy, hxs, hys, hxv, hyv]
  · intro x y hn
    simp only [Framebuffer.transfer, Framebuffer.clear]
    rw [if_neg hn]
  · intro x y
    rfl

/-- C5: reconciling a damaged view whose framebuffer size equals its
logical size replaces the framebuffer contents wholesale with the current
snapshot's pixels and leaves every GPU resource of the view (framebuffer
objects, staging framebuffer, vertex buffer, bindings) and the renderer's
fresh-id counter unchanged: no resource is re-created. -/
theorem C5_damaged_same_size_fills_in_place
    (r : Renderer) (v : View) (vd : ViewData) (s : Snapshot)
    (hvd : lookupKey v.id r.view_data = some vd)
    (hw : vd.fb.width = v.width) (hh : vd.fb.height = v.height)
    (hd : v.is_damaged = true)
    (hs : r.resources.get_snapshot v.id = some s) :
    ∃ r2, r.handle_view_dirty v = .ok r2 ∧
      lookupKey v.id r2.view_data =
        some { vd with fb := { vd.fb with pixels := s.pixels } } ∧
      (∀ id2, id2 ≠ v.id →
        lookupKey id2 r2.view_data = lookupKey id2 r.view_data) ∧
      r2.next_id = r.next_id ∧
      r2.paste = r.paste ∧
      r2.resources = r.resources ∧
      r2.staging_batch = r.staging_batch ∧
      r2.final_batch = r.final_batch := by
  have hsz : ¬(vd.fb.width ≠ v.width ∨ vd.fb.height ≠ v.height) := by
    simp [hw, hh]
  simp only [Renderer.handle_view_dirty, hvd, if_neg hsz, hd, hs,
    Framebuffer.fill, if_true]
  exact ⟨_, rfl, lookupKey_insertKey_self _ _ _,
    fun id2 hne => lookupKey_insertKey_ne _ _ _ _ hne, rfl, rfl, rfl, rfl, rfl⟩

/-- A screen-framebuffer fixture. -/
def fb0 : Framebuffer := ⟨640, 480, fun _ _ => transparent⟩

/-- A paste-buffer fixture: the initial 1 × 1 paste texture. -/
def paste0 : Paste := ⟨1, 1, fun _ _ => transparent, 7, [], true⟩

/-- A 3 × 2 snapshot fixture with distinct pixel values. -/
def snap0 : Snapshot := ⟨⟨3, 2⟩, fun x y => x + 10 * y + 1⟩

/-- A renderer fixture: one view (id 0) whose framebuffer matches `snap0`
and whose current snapshot is `snap0`. -/
def renderer0 : Renderer where
  win_w := 640
  win_h := 480
  scale := 1
  swap_w := 640
  swap_h := 480
  screen_fb := fb0
  resources := ⟨[(0, [snap0])]⟩
  view_data := [(0, (ViewData.new 3 2 50).1)]
  paste := paste0
  final_batch := []
  staging_batch := []
  blending := Blending.default
  next_id := 100

/-- A view fixture: view 0 resized to 2 × 5 and flagged dirty. -/
def view_resized : View := ⟨0, 2, 5, true, false, []⟩

/-- A view fixture: view 0 still at 3 × 2 but flagged damaged. -/
def view_damaged : View := ⟨0, 3, 2, false, true, []⟩

/-- A paused-session fixture. -/
def session_paused : Session :=
  ⟨State.paused, Mode.normal, none, [(0, view_resized)], 0, false, false,
    false, 0⟩

/-- Witness for C1 at a concrete resize: snapshot 3 × 2, view resized to
2 × 5, so the transferred overlap is `[0, 2) × [0, 2)`. -/
theorem C1_resize_recreates_and_transfers_overlap_witness :
    lookupKey view_resized.id renderer0.view_data =
      some (ViewData.new 3 2 50).1 ∧
    ((ViewData.new 3 2 50).1.fb.width ≠ view_resized.width ∨
      (ViewData.new 3 2 50).1.fb.height ≠ view_resized.height) ∧
    renderer0.resources.get_snapshot view_resized.id = some snap0 ∧
    (∃ r2 vd2, renderer0.handle_view_dirty view_resized = .ok r2 ∧
      lookupKey view_resized.id r2.view_data = some vd2 ∧
      vd2.fb.width = view_resized.width ∧
      vd2.fb.height = view_resized.height ∧
      vd2.staging_fb.width = view_resized.width ∧
      vd2.staging_fb.height = view_resized.height ∧
      vd2.vb = renderer0.next_id ∧ vd2.binding = renderer0.next_id + 1 ∧
      vd2.staging_binding = renderer0.next_id + 2 ∧
      r2.next_id = renderer0.next_id + 4 ∧
      (∀ x y, x < min snap0.width view_resized.width →
        y < min snap0.height view_resized.height →
        vd2.fb.pixels x y = snap0.pixels x y) ∧
      (∀ x y, ¬(x < min snap0.width view_resized.width ∧
          y < min snap0.height view_resized.height) →
        vd2.fb.pixels x y = transparent) ∧
      (∀ x y, vd2.staging_fb.pixels x y = transparent)) :=
  ⟨rfl, by decide, rfl,
    C1_resize_recreates_and_transfers_overlap renderer0 view_resized
      (ViewData.new 3 2 50).1 snap0 rfl (by decide) rfl⟩

/-- Witness for C5 at a concrete damage: snapshot and framebuffer both
3 × 2, view damaged, contents replaced in place. -/
theorem C5_damaged_same_size_fills_in_place_witness :
    lookupKey view_damaged.id renderer0.view_data =
      some (ViewData.new 3 2 50).1 ∧
    (ViewData.new 3 2 50).1.fb.width = view_damaged.width ∧
    (ViewData.new 3 2 50).1.fb.height = view_damaged.height ∧
    view_damaged.is_damaged = true ∧
    renderer0.resources.get_snapshot view_damaged.id = some snap0 ∧
    (∃ r2, renderer0.handle_view_dirty view_damaged = .ok r2 ∧
      lookupKey view_damaged.id r2.view_data =
        some { (ViewData.new 3 2 50).1 with
          fb := { (ViewData.new 3 2 50).1.fb with pixels := snap0.pixels } } ∧
      (∀ id2, id2 ≠ view_damaged.id →
        lookupKey id2 r2.view_data = lookupKey id2 renderer0.view_data) ∧
      r2.next_id = renderer0.next_id ∧
      r2.paste = renderer0.paste ∧
      r2.resources = renderer0.resources ∧
      r2.staging_batch = renderer0.staging_batch ∧
      r2.final_batch = renderer0.final_batch) :=
  ⟨rfl, rfl, rfl, rfl, rfl,
    C5_damaged_same_size_fills_in_place renderer0 view_damaged
      (ViewData.new 3 2 50).1 snap0 rfl rfl rfl rfl rfl⟩

/-- Witness for C8: removing view id 7, which has no view data. -/
theorem C8_view_removed_is_noop_witness :
    lookupKey 7 renderer0.view_data = none ∧
    renderer0.handle_effect [] (Effect.viewRemoved 7) = .ok renderer0 :=
  ⟨rfl, C8_view_removed_is_noop renderer0 [] 7 rfl⟩

/-- Witness for C10: a paused session makes `frame` a no-op. -/
theorem C10_frame_early_return_witness :
    session_paused.state ≠ State.running ∧
    renderer0.frame session_paused [Effect.viewTouched 0] true =
      .ok (renderer0, []) :=
  ⟨by decide,
    C10_frame_early_return renderer0 session_paused [Effect.viewTouched 0]
      true (by decide)⟩

/-- The number of `Paste` ops in a view-op queue. -/
def paste_count : List ViewOp → Nat
  | [] => 0
  | .paste _ :: rest => paste_count rest + 1
  | _ :: rest => paste_count rest

theorem draft_shapes_cons (e : Effect) (es : List Effect) :
    draft_shapes (e :: es) = draft_shapes [e] ++ draft_shapes es := by
  cases e <;> simp [draft_shapes]

theorem final_shapes_cons (e : Effect) (es : List Effect) :
    final_shapes (e :: es) = final_shapes [e] ++ final_shapes es := by
  cases e <;> simp [final_shapes]

theorem handle_view_dirty_preserves (r : Renderer) (v : View) (r2 : Renderer)
    (h : r.handle_view_dirty v = .ok r2) :
    r2.resources = r.resources ∧ r2.staging_batch = r.staging_batch ∧
    r2.final_batch = r.final_batch ∧ r2.paste = r.paste ∧
    r2.blending = r.blending := by
  simp only [Renderer.handle_view_dirty, ViewData.new] at h
  split at h
  · cases h
  · split at h
    · split at h
      · cases h
      · split at h
        · cases h
        · cases h
          exact ⟨rfl, rfl, rfl, rfl, rfl⟩
    · split at h
      · split at h
        · cases h
        · cases h
          exact ⟨rfl, rfl, rfl, rfl, rfl⟩
      · cases h
        exact ⟨rfl, rfl, rfl, rfl, rfl⟩

theorem add_view_preserves (r : Renderer) (id : ViewId) (r2 : Renderer)
    (h : r.add_view id = .ok r2) :
    r2.resources = r.resources ∧ r2.staging_batch = r.staging_batch ∧
    r2.final_batch = r.final_batch ∧ r2.paste = r.paste ∧
    r2.blending = r.blending := by
  simp only [Renderer.add_view, ViewData.new] at h
  split at h
  · cases h
  · cases h
    exact ⟨rfl, rfl, rfl, rfl, rfl⟩

theorem handle_effect_ok_state (r : Renderer) (vm : ViewManager) (e : Effect)
    (r2 : Renderer) (h : r.handle_effect vm e = .ok r2) :
    r2.resources = r.resources ∧ r2.paste = r.paste ∧
    r2.staging_batch = r.staging_batch ++ draft_shapes [e] ∧
    r2.final_batch = r.final_batch ++ final_shapes [e] := by
  cases e with
  | sessionResized w h2 =>
      simp only [Renderer.handle_effect] at h
      cases h
      simp [Renderer.handle_resized, Renderer.handle_scaled, draft_shapes,
        final_shapes]
  | sessionScaled sc =>
      simp only [Renderer.handle_effect] at h
      cases h
      simp [Renderer.handle_scaled, draft_shapes, final_shapes]
  | viewActivated id =>
      simp only [Renderer.handle_effect] at h
      cases h
      simp [draft_shapes, final_shapes]
  | viewAdded id =>
      simp only [Renderer.handle_effect] at h
      obtain ⟨h1, h2, h3, h4, -⟩ := add_view_preserves _ _ _ h
      simp [h1, h2, h3, h4, draft_shapes, final_shapes]
  | viewRemoved id =>
      simp only [Renderer.handle_effect] at h
      cases h
      simp [draft_shapes, final_shapes]
  | viewTouched id =>
      simp only [Renderer.handle_effect] at h
      split at h
      · cases h
      · obtain ⟨h1, h2, h3, h4, -⟩ := handle_view_dirty_preserves _ _ _ h
        simp [h1, h2, h3, h4, draft_shapes, final_shapes]
  | viewDamaged id =>
      simp only [Renderer.handle_effect] at h
      split at h
      · cases h
      · obtain ⟨h1, h2, h3, h4, -⟩ := handle_view_dirty_preserves _ _ _ h
        simp [h1, h2, h3, h4, draft_shapes, final_shapes]
  | viewBlendingChanged b =>
      simp only [Renderer.handle_effect] at h
      cases h
      simp [draft_shapes, final_shapes]
  | viewPaintDraft shapes =>
      simp only [Renderer.handle_effect] at h
      cases h
      simp [draft_shapes, final_shapes]
  | viewPaintFinal shapes =>
      simp only [Renderer.handle_effect] at h
      cases h
      simp [draft_shapes, final_shapes]

theorem handle_effects_ok_state (vm : ViewManager) (es : List Effect)
    (r r2 : Renderer) (h : r.handle_effects vm es = .ok r2) :
    r2.resources = r.resources ∧ r2.paste = r.paste ∧
    r2.staging_batch = r.staging_batch ++ draft_shapes es ∧
    r2.final_batch = r.final_batch ++ final_shapes es := by
  induction es generalizing r with
  | nil =>
      simp only [Renderer.handle_effects] at h
      cases h
      simp [draft_shapes, final_shapes]
  | cons e rest ih =>
      simp only [Renderer.handle_effects] at h
      split at h
      · cases h
      · rename_i rmid hmid
        obtain ⟨h1, h2, h3, h4⟩ := handle_effect_ok_state _ _ _ _ hmid
        obtain ⟨g1, g2, g3, g4⟩ := ih _ h
        refine ⟨g1.trans h1, g2.trans h2, ?_, ?_⟩
        · rw [g3, h3, draft_shapes_cons e rest]
          simp only [draft_shapes, List.append_nil, List.append_assoc]
        · rw [g4, h4, final_shapes_cons e rest]
          simp only [final_shapes, List.append_nil, List.append_assoc]

theorem run_view_ops_ok_state (rs : Resources) (id : ViewId)
    (ops : List ViewOp) (st st2 : OpState)
    (h : run_view_ops rs id st ops = .ok st2) :
    ∃ extra, st2.paste.outputs = st.paste.outputs ++ extra ∧
      extra.length = paste_count ops := by
  induction ops generalizing st with
  | nil =>
      simp only [run_view_ops] at h
      cases h
      exact ⟨[], by simp, by simp [paste_count]⟩
  | cons op rest ih =>
      simp only [run_view_ops] at h
      split at h
      · cases h
      · rename_i stmid hmid
        obtain ⟨extra, he, hl⟩ := ih _ h
        cases op with
        | clear color =>
            simp only [step_view_op] at hmid
            cases hmid
            exact ⟨extra, he, by simpa [paste_count] using hl⟩
        | blit src dst =>
            simp only [step_view_op] at hmid
            cases hmid
            exact ⟨extra, he, by simpa [paste_count] using hl⟩
        | yank src =>
            simp only [step_view_op] at hmid
            split at hmid
            · cases hmid
            · split at hmid <;> cases hmid <;>
                exact ⟨extra, he, by simpa [paste_count] using hl⟩
        | paste dst =>
            simp only [step_view_op] at hmid
            cases hmid
            refine ⟨⟨st.paste.tex_w, st.paste.tex_h, dst⟩ :: extra, ?_, ?_⟩
            · simpa [List.append_assoc] using he
            · simp [paste_count, hl]

theorem handle_view_ops_ok_state (r : Renderer) (v : View) (r2 : Renderer)
    (h : r.handle_view_ops v = .ok r2) :
    r2.resources = r.resources ∧ r2.staging_batch = r.staging_batch ∧
    r2.final_batch = r.final_batch ∧ r2.blending = r.blending ∧
    ∃ extra, r2.paste.outputs = r.paste.outputs ++ extra ∧
      extra.length = paste_count v.ops := by
  simp only [Renderer.handle_view_ops] at h
  split at h
  · cases h
  · split at h
    · cases h
    · rename_i st hst
      cases h
      obtain ⟨extra, he, hl⟩ := run_view_ops_ok_state _ _ _ _ _ hst
      exact ⟨rfl, rfl, rfl, rfl, extra, he, hl⟩

/-- Total paste ops queued across a list of session views. -/
def total_paste_count : List (ViewId × View) → Nat
  | [] => 0
  | p :: rest => paste_count p.2.ops + total_paste_count rest

theorem handle_all_view_ops_ok_state (vs : List (ViewId × View))
    (r r2 : Renderer) (h : r.handle_all_view_ops vs = .ok r2) :
    r2.resources = r.resources ∧ r2.staging_batch = r.staging_batch ∧
    r2.final_batch = r.final_batch ∧ r2.blending = r.blending ∧
    ∃ extra, r2.paste.outputs = r.paste.outputs ++ extra ∧
      extra.length = total_paste_count vs := by
  induction vs generalizing r with
  | nil =>
      simp only [Renderer.handle_all_view_ops] at h
      cases h
      exact ⟨rfl, rfl, rfl, rfl, [], by simp, by simp [total_paste_count]⟩
  | cons p rest ih =>
      simp only [Renderer.handle_all_view_ops] at h
      split at h
      · cases h
      · rename_i rmid hmid
        obtain ⟨g1, g2, g3, g4, gex, ge, gl⟩ := ih _ h
        by_cases hops : p.2.ops.isEmpty = true
        · rw [if_pos hops] at hmid
          cases hmid
          refine ⟨g1, g2, g3, g4, gex, ge, ?_⟩
          have : paste_count p.2.ops = 0 := by
            cases hops2 : p.2.ops with
            | nil => simp [paste_count]
            | cons a b => rw [hops2] at hops; simp [List.isEmpty] at hops
          simp [total_paste_count, this, gl]
        · rw [if_neg hops] at hmid
          obtain ⟨h1, h2, h3, h4, hex, he, hl⟩ :=
            handle_view_ops_ok_state _ _ _ hmid
          refine ⟨g1.trans h1, g2.trans h2, g3.trans h3, g4.trans h4,
            hex ++ gex, ?_, ?_⟩
          · rw [ge, he, List.append_assoc]
          · simp [total_paste_count, hl, gl]

theorem frame_ok_dissect (r : Renderer) (s : Session) (es : List Effect)
    (en : Bool) (r4 : Renderer) (evs : List FrameEvent)
    (hrun : s.state = State.running)
    (h : r.frame s es en = .ok (r4, evs)) :
    ∃ r2 r3 v vd,
      Renderer.handle_effects { r with staging_batch := [], final_batch := [] }
        s.views es = .ok r2 ∧
      r2.handle_all_view_ops s.views = .ok r3 ∧
      s.active_view = some v ∧
      lookupKey v.id r3.view_data = some vd ∧
      (r4, evs) = r3.composite s v en := by
  rw [Renderer.frame, if_neg (by simp [hrun])] at h
  split at h
  · cases h
  · rename_i r2 hE
    simp only [Renderer.after_effects] at h
    split at h
    · cases h
    · rename_i r3 hO
      split at h
      · cases h
      · rename_i v hv
        split at h
        · cases h
        · rename_i vd hvd
          cases h
          exact ⟨r2, r3, v, vd, hE, hO, hv, hvd, rfl⟩

/-- A clean 3 × 2 view fixture (id 0, no flags, no ops). -/
def view_okay : View := ⟨0, 3, 2, false, false, []⟩

/-- A running-session fixture whose active view is `view_okay`. -/
def session_running : Session :=
  ⟨State.running, Mode.normal, none, [(0, view_okay)], 0, false, false,
    false, 0⟩

/-- C2: `handle_effects` drains the effect sequence front to back, exactly
once each and in emission order — it is the strict left-to-right
composition of single-effect steps (both the head step and the sequential
split of any concatenation) — and a running `frame` applies all of a
tick's effects first, feeding the resulting renderer to every later stage
(view ops, pass recording, compositing, presentation). -/
theorem C2_effects_in_order_before_composite
    (r : Renderer) (vm : ViewManager) (es1 es2 : List Effect)
    (s : Session) (es : List Effect) (en : Bool)
    (h : s.state = State.running) :
    (r.handle_effects vm (es1 ++ es2) =
      match r.handle_effects vm es1 with
      | .error m => .error m
      | .ok r2 => r2.handle_effects vm es2) ∧
    (∀ (e : Effect) (rest : List Effect),
      r.handle_effects vm (e :: rest) =
        match r.handle_effect vm e with
        | .error m => .error m
        | .ok r2 => r2.handle_effects vm rest) ∧
    (r.frame s es en =
      match Renderer.handle_effects
          { r with staging_batch := [], final_batch := [] } s.views es with
      | .error m => .error m
      | .ok r2 => r2.after_effects s en) := by
  refine ⟨?_, fun e rest => rfl, ?_⟩
  · induction es1 generalizing r with
    | nil => simp [Renderer.handle_effects]
    | cons e rest ih =>
        simp only [List.cons_append, Renderer.handle_effects]
        cases he : r.handle_effect vm e <;> simp [he, ih]
  · rw [Renderer.frame, if_neg (by simp [h])]

/-- Witness for C2 at concrete inputs: two paint effects split across a
concatenation, and a running frame. -/
theorem C2_effects_in_order_before_composite_witness :
    session_running.state = State.running ∧
    ((renderer0.handle_effects [] ([Effect.viewPaintDraft [1]] ++
        [Effect.viewPaintFinal [2]]) =
      match renderer0.handle_effects [] [Effect.viewPaintDraft [1]] with
      | .error m => .error m
      | .ok r2 => r2.handle_effects [] [Effect.viewPaintFinal [2]]) ∧
    (∀ (e : Effect) (rest : List Effect),
      renderer0.handle_effects [] (e :: rest) =
        match renderer0.handle_effect [] e with
        | .error m => .error m
        | .ok r2 => r2.handle_effects [] rest) ∧
    (renderer0.frame session_running [Effect.viewTouched 0] true =
      match Renderer.handle_effects
          { renderer0 with staging_batch := [], final_batch := [] }
          session_running.views [Effect.viewTouched 0] with
      | .error m => .error m
      | .ok r2 => r2.after_effects session_running true)) :=
  ⟨rfl,
    C2_effects_in_order_before_composite renderer0 []
      [Effect.viewPaintDraft [1]] [Effect.viewPaintFinal [2]]
      session_running [Effect.viewTouched 0] true rfl⟩

theorem draws_brush_shapes_paste_map (outs : List PasteOutput) :
    draws_brush_shapes (outs.map Draw.pasteOutput) = [] := by
  induction outs with
  | nil => rfl
  | cons o rest ih => simpa [draws_brush_shapes] using ih

theorem draws_paste_outputs_paste_map (outs : List PasteOutput) :
    draws_paste_outputs (outs.map Draw.pasteOutput) = outs := by
  induction outs with
  | nil => rfl
  | cons o rest ih => simp [draws_paste_outputs, ih]

theorem staging_draws_brush (l : List Shape) (b : Blending) (c : Bool) :
    draws_brush_shapes
      ((if l.isEmpty then [] else [Draw.brushStrokes l b]) ++
        (if c then [Draw.pasteStaging] else [])) = l := by
  cases l <;> cases c <;> simp [draws_brush_shapes]

theorem final_draws_brush (l : List Shape) (b : Blending)
    (outs : List PasteOutput) :
    draws_brush_shapes
      ((if l.isEmpty then [] else [Draw.brushStrokes l b]) ++
        outs.map Draw.pasteOutput) = l := by
  cases l <;> simp [draws_brush_shapes, draws_brush_shapes_paste_map]

theorem final_draws_paste (l : List Shape) (b : Blending)
    (outs : List PasteOutput) :
    draws_paste_outputs
      ((if l.isEmpty then [] else [Draw.brushStrokes l b]) ++
        outs.map Draw.pasteOutput) = outs := by
  cases l <;> simp [draws_paste_outputs, draws_paste_outputs_paste_map]

/-- C3: on every running frame both shape batches are reset at the start
(the two passes draw exactly this tick's `ViewPaintDraft`/`ViewPaintFinal`
shapes, independent of what earlier ticks left in the batches), the active
view's staging framebuffer is rendered with a clearing pass (transparent
clear, even when no draft shapes were emitted), and its final framebuffer
with a loading pass that preserves accumulated content. -/
theorem C3_staging_clear_final_load
    (r : Renderer) (s : Session) (es : List Effect) (en : Bool)
    (r4 : Renderer) (evs : List FrameEvent) (v : View)
    (hrun : s.state = State.running)
    (h : r.frame s es en = .ok (r4, evs))
    (hv : s.active_view = some v) :
    ∃ ps pf rest, evs = FrameEvent.pass ps :: FrameEvent.pass pf :: rest ∧
      ps.kind = PassKind.clear transparent ∧
      ps.target = Target.stagingFb v.id ∧
      pf.kind = PassKind.load ∧
      pf.target = Target.viewFb v.id ∧
      ps.brush_shapes = draft_shapes es ∧
      pf.brush_shapes = final_shapes es := by
  obtain ⟨r2, r3, v2, vd, hE, hO, hv2, hvd, hco⟩ :=
    frame_ok_dissect r s es en r4 evs hrun h
  rw [hv] at hv2
  injection hv2 with hveq
  subst hveq
  obtain ⟨-, -, hst2, hfi2⟩ := handle_effects_ok_state _ _ _ _ hE
  obtain ⟨-, hst3, hfi3, -, -⟩ := handle_all_view_ops_ok_state _ _ _ hO
  have hst : r3.staging_batch = draft_shapes es := by
    rw [hst3, hst2]; simp
  have hfi : r3.final_batch = final_shapes es := by
    rw [hfi3, hfi2]; simp
  have hevs := congrArg Prod.snd hco
  simp only [Renderer.composite] at hevs
  exact ⟨_, _, _, hevs, rfl, rfl, rfl, rfl,
    (by rw [Pass.brush_shapes, ← hst]
        exact staging_draws_brush r3.staging_batch Blending.default _),
    (by rw [Pass.brush_shapes, ← hfi]
        exact final_draws_brush r3.final_batch r3.blending r3.paste.outputs)⟩

/-- Witness for C3: a running frame carrying one draft shape. -/
theorem C3_staging_clear_final_load_witness :
    session_running.state = State.running ∧
    session_running.active_view = some view_okay ∧
    (∃ r4 evs,
      renderer0.frame session_running [Effect.viewPaintDraft [5]] true =
        .ok (r4, evs) ∧
      ∃ ps pf rest, evs = FrameEvent.pass ps :: FrameEvent.pass pf :: rest ∧
        ps.kind = PassKind.clear transparent ∧
        ps.target = Target.stagingFb view_okay.id ∧
        pf.kind = PassKind.load ∧
        pf.target = Target.viewFb view_okay.id ∧
        ps.brush_shapes = draft_shapes [Effect.viewPaintDraft [5]] ∧
        pf.brush_shapes = final_shapes [Effect.viewPaintDraft [5]]) :=
  ⟨rfl, rfl, ⟨_, _, rfl,
    C3_staging_clear_final_load renderer0 session_running
      [Effect.viewPaintDraft [5]] true _ _ view_okay rfl rfl rfl⟩⟩

theorem lookupKey_push_snapshot (id : ViewId) (x : Snapshot)
    (l : List (ViewId × List Snapshot)) (hist : List Snapshot)
    (h : lookupKey id l = some hist) :
    lookupKey id (l.map fun p =>
      if p.1 = id then (p.1, x :: p.2) else p) = some (x :: hist) := by
  induction l with
  | nil => cases h
  | cons p rest ih =>
      by_cases hp : p.1 = id
      · simp only [lookupKey, if_pos hp] at h
        cases h
        simp [List.map, lookupKey, hp]
      · simp only [lookupKey, if_neg hp] at h
        simp [List.map, lookupKey, hp, ih h]

/-- C9: a running frame schedules the snapshot readback if and only if the
active view is dirty, and always after the presentation; the frame itself
never mutates the resource manager (the readback completes later, through
its callback), and that callback's only mutation is to take the resource
manager's write lock and push a new snapshot with the view's extent. -/
theorem C9_readback_iff_dirty_after_present
    (r : Renderer) (s : Session) (es : List Effect) (en : Bool)
    (r4 : Renderer) (evs : List FrameEvent) (v : View)
    (hrun : s.state = State.running)
    (h : r.frame s es en = .ok (r4, evs))
    (hv : s.active_view = some v) :
    (FrameEvent.readback v.id v.extent ∈ evs ↔ v.is_dirty = true) ∧
    (∃ p1 p2 p3 p4,
      evs = [FrameEvent.pass p1, FrameEvent.pass p2, FrameEvent.pass p3,
        FrameEvent.pass p4, FrameEvent.present] ++
        (if v.is_dirty then [FrameEvent.readback v.id v.extent] else []) ++
        (if en then [] else [FrameEvent.screenReadback])) ∧
    r4.resources = r.resources ∧
    (∀ (data : Nat → Nat → Color) (rs : Resources) (hist : List Snapshot),
      lookupKey v.id rs.views = some hist →
      lookupKey v.id (readback_callback v.id v.extent data rs).views =
        some (Snapshot.mk v.extent data :: hist)) := by
  obtain ⟨r2, r3, v2, vd, hE, hO, hv2, hvd, hco⟩ :=
    frame_ok_dissect r s es en r4 evs hrun h
  rw [hv] at hv2
  injection hv2 with hveq
  subst hveq
  have hevs := congrArg Prod.snd hco
  simp only [Renderer.composite] at hevs
  have hres4 : r4.resources = r.resources := by
    have h1 := congrArg Prod.fst hco
    simp only [Renderer.composite] at h1
    obtain ⟨hres2, -, -, -⟩ := handle_effects_ok_state _ _ _ _ hE
    obtain ⟨hres3, -, -, -, -⟩ := handle_all_view_ops_ok_state _ _ _ hO
    rw [h1]
    exact hres3.trans hres2
  refine ⟨?_, ⟨_, _, _, _, hevs⟩, hres4, ?_⟩
  · cases hd : v.is_dirty <;> cases en <;> simp [hevs, hd]
  · intro data rs hist hlook
    simp only [readback_callback, Resources.lock_mut, Resources.push_snapshot]
    exact lookupKey_push_snapshot _ _ _ _ hlook

/-- Witness for C9: a running frame over a clean view (no readback). -/
theorem C9_readback_iff_dirty_after_present_witness :
    session_running.state = State.running ∧
    session_running.active_view = some view_okay ∧
    (∃ r4 evs,
      renderer0.frame session_running [] true = .ok (r4, evs) ∧
      ((FrameEvent.readback view_okay.id view_okay.extent ∈ evs ↔
        view_okay.is_dirty = true) ∧
      (∃ p1 p2 p3 p4,
        evs = [FrameEvent.pass p1, FrameEvent.pass p2, FrameEvent.pass p3,
          FrameEvent.pass p4, FrameEvent.present] ++
          (if view_okay.is_dirty then
            [FrameEvent.readback view_okay.id view_okay.extent] else []) ++
          (if true then [] else [FrameEvent.screenReadback])) ∧
      r4.resources = renderer0.resources ∧
      (∀ (data : Nat → Nat → Color) (rs : Resources) (hist : List Snapshot),
        lookupKey view_okay.id rs.views = some hist →
        lookupKey view_okay.id
          (readback_callback view_okay.id view_okay.extent data rs).views =
          some (Snapshot.mk view_okay.extent data :: hist)))) :=
  ⟨rfl, rfl, ⟨_, _, rfl,
    C9_readback_iff_dirty_after_present renderer0 session_running [] true
      _ _ view_okay rfl rfl rfl⟩⟩

/-- A running-session fixture whose active view is `view_resized` (dirty). -/
def session_dirty : Session :=
  ⟨State.running, Mode.normal, none, [(0, view_resized)], 0, false, false,
    false, 0⟩

/-- Counterexample to C6 as stated: with the dirty view `view_resized`
(resized to 2 × 5 against a 3 × 2 framebuffer), `frame` runs the full
dirty-branch reconciliation (the fresh-id counter advances by 4, showing
the resources were re-created), yet afterwards — at the readback decision,
which the renderer takes after reconciling — the view still reports
dirty, so the dirty readback is scheduled: the renderer did not reset the
flag (it only ever holds the session and its views immutably). -/
theorem C6_counterexample :
    View.is_dirty view_resized = true ∧
    frame_next_id renderer0 session_dirty [Effect.viewTouched 0] true =
      some (renderer0.next_id + 4) ∧
    FrameEvent.readback 0 ⟨2, 5⟩ ∈
      (frame_trace renderer0 session_dirty [Effect.viewTouched 0] true).getD
        [] := by
  refine ⟨rfl, ?_, ?_⟩ <;> decide

/-- C6 (amended): after the renderer reconciles a dirty view, the view's
flags are untouched by the renderer — the renderer borrows the session's
views immutably, and later in the very same frame it still observes the
dirty flag set, which is what triggers the snapshot readback; the
transition back to Clean is performed outside the renderer. -/
theorem C6_renderer_does_not_reset_flags
    (r : Renderer) (s : Session) (es : List Effect) (en : Bool)
    (r4 : Renderer) (evs : List FrameEvent) (v : View)
    (hrun : s.state = State.running)
    (h : r.frame s es en = .ok (r4, evs))
    (hv : s.active_view = some v)
    (hd : v.is_dirty = true) :
    FrameEvent.readback v.id v.extent ∈ evs := by
  obtain ⟨r2, r3, v2, vd, hE, hO, hv2, hvd, hco⟩ :=
    frame_ok_dissect r s es en r4 evs hrun h
  rw [hv] at hv2
  injection hv2 with hveq
  subst hveq
  have hevs := congrArg Prod.snd hco
  simp only [Renderer.composite] at hevs
  cases en <;> simp [hevs, hd]

/-- Witness for the amended C6: the same concrete dirty-view frame. -/
theorem C6_renderer_does_not_reset_flags_witness :
    session_dirty.state = State.running ∧
    session_dirty.active_view = some view_resized ∧
    View.is_dirty view_resized = true ∧
    (∃ r4 evs,
      renderer0.frame session_dirty [Effect.viewTouched 0] true =
        .ok (r4, evs) ∧
      FrameEvent.readback view_resized.id view_resized.extent ∈ evs) :=
  ⟨rfl, rfl, rfl, ⟨_, _, rfl,
    C6_renderer_does_not_reset_flags renderer0 session_dirty
      [Effect.viewTouched 0] true _ _ view_resized rfl rfl rfl rfl⟩⟩

/-- C4: in a running frame, the final pass draws exactly the queued paste
outputs, once each and in order, and afterwards the output list is
drained; effects never queue paste outputs, and view-op handling queues
exactly one output per `ViewOp::Paste` (so with no further paste ops no
later frame draws any paste output again). -/
theorem C4_paste_outputs_drawn_once_then_drained
    (r : Renderer) (s : Session) (es : List Effect) (en : Bool)
    (r2 r3 r4 : Renderer) (evs : List FrameEvent)
    (hrun : s.state = State.running)
    (hE : Renderer.handle_effects
      { r with staging_batch := [], final_batch := [] } s.views es = .ok r2)
    (hO : r2.handle_all_view_ops s.views = .ok r3)
    (hfr : r.frame s es en = .ok (r4, evs)) :
    (∃ ps pf rest, evs = FrameEvent.pass ps :: FrameEvent.pass pf :: rest ∧
      pf.paste_draws = r3.paste.outputs) ∧
    r4.paste.outputs = [] ∧
    (∀ (w : View) (rA rB : Renderer), rA.handle_view_ops w = .ok rB →
      ∃ extra, rB.paste.outputs = rA.paste.outputs ++ extra ∧
        extra.length = paste_count w.ops) ∧
    (∀ (vm : ViewManager) (es2 : List Effect) (rA rB : Renderer),
      rA.handle_effects vm es2 = .ok rB →
      rB.paste.outputs = rA.paste.outputs) ∧
    (∀ (vs : List (ViewId × View)) (rA rB : Renderer),
      total_paste_count vs = 0 → rA.handle_all_view_ops vs = .ok rB →
      rB.paste.outputs = rA.paste.outputs) := by
  obtain ⟨r2x, r3x, v2, vd, hEx, hOx, hv2, hvd, hco⟩ :=
    frame_ok_dissect r s es en r4 evs hrun hfr
  rw [hE] at hEx
  injection hEx with h2
  subst h2
  rw [hO] at hOx
  injection hOx with h3
  subst h3
  have hevs := congrArg Prod.snd hco
  simp only [Renderer.composite] at hevs
  have hr4 := congrArg Prod.fst hco
  simp only [Renderer.composite] at hr4
  refine ⟨⟨_, _, _, hevs, ?_⟩, ?_, ?_, ?_, ?_⟩
  · rw [Pass.paste_draws]
    exact final_draws_paste _ _ _
  · rw [hr4]
  · intro w rA rB hAB
    obtain ⟨-, -, -, -, extra, he, hl⟩ := handle_view_ops_ok_state _ _ _ hAB
    exact ⟨extra, he, hl⟩
  · intro vm es2 rA rB hAB
    obtain ⟨-, hp, -, -⟩ := handle_effects_ok_state _ _ _ _ hAB
    rw [hp]
  · intro vs rA rB htot hAB
    obtain ⟨-, -, -, -, extra, he, hl⟩ := handle_all_view_ops_ok_state _ _ _ hAB
    rw [htot] at hl
    have : extra = [] := List.length_eq_zero.mp hl
    rw [this] at he
    simpa using he

/-- A 2 × 2 yank/paste source rectangle. -/
def rect0 : Rect := ⟨0, 0, 2, 2⟩

/-- A view fixture queueing a yank followed by a paste. -/
def view_pasting : View :=
  ⟨0, 3, 2, false, false, [ViewOp.yank rect0, ViewOp.paste rect0]⟩

/-- A running-session fixture whose active view queues a yank and a paste. -/
def session_pasting : Session :=
  ⟨State.running, Mode.normal, none, [(0, view_pasting)], 0, false, false,
    false, 0⟩

/-- Witness for C4: one yank and one paste queued on the active view. -/
theorem C4_paste_outputs_drawn_once_then_drained_witness :
    session_pasting.state = State.running ∧
    (∃ r2 r3 r4 evs,
      Renderer.handle_effects
        { renderer0 with staging_batch := [], final_batch := [] }
        session_pasting.views [] = .ok r2 ∧
      r2.handle_all_view_ops session_pasting.views = .ok r3 ∧
      renderer0.frame session_pasting [] true = .ok (r4, evs) ∧
      ((∃ ps pf rest,
        evs = FrameEvent.pass ps :: FrameEvent.pass pf :: rest ∧
        pf.paste_draws = r3.paste.outputs) ∧
      r4.paste.outputs = [] ∧
      (∀ (w : View) (rA rB : Renderer), rA.handle_view_ops w = .ok rB →
        ∃ extra, rB.paste.outputs = rA.paste.outputs ++ extra ∧
          extra.length = paste_count w.ops) ∧
      (∀ (vm : ViewManager) (es2 : List Effect) (rA rB : Renderer),
        rA.handle_effects vm es2 = .ok rB →
        rB.paste.outputs = rA.paste.outputs) ∧
      (∀ (vs : List (ViewId × View)) (rA rB : Renderer),
        total_paste_count vs = 0 → rA.handle_all_view_ops vs = .ok rB →
        rB.paste.outputs = rA.paste.outputs))) :=
  ⟨rfl, ⟨_, _, _, _, rfl, rfl, rfl,
    C4_paste_outputs_drawn_once_then_drained renderer0 session_pasting []
      true _ _ _ _ rfl rfl rfl rfl⟩⟩

theorem lookupKey_mem {α : Type} (id : ViewId) (l : List (ViewId × α))
    (a : α) (h : lookupKey id l = some a) : (id, a) ∈ l := by
  induction l with
  | nil => cases h
  | cons p rest ih =>
      by_cases hp : p.1 = id
      · simp only [lookupKey, if_pos hp] at h
        injection h with h2
        cases p
        simp_all
      · simp only [lookupKey, if_neg hp] at h
        exact List.mem_cons_of_mem _ (ih h)

theorem lookupKey_removeKey {α : Type} (id k : ViewId)
    (l : List (ViewId × α)) :
    lookupKey k (removeKey id l) = if k = id then none else lookupKey k l := by
  by_cases hk : k = id
  · subst hk
    simp [removeKey, lookupKey_filter_self]
  · simp [removeKey, hk, lookupKey_filter_ne id k l hk]

theorem handle_view_dirty_ok_of (r : Renderer) (v : View)
    (hvd : (lookupKey v.id r.view_data).isSome = true)
    (hs : (r.resources.get_snapshot v.id).isSome = true) :
    ∃ r2, r.handle_view_dirty v = .ok r2 ∧ r2.resources = r.resources ∧
      (∀ k, (lookupKey k r2.view_data).isSome = true ↔
        (lookupKey k r.view_data).isSome = true) := by
  obtain ⟨vd, hvd2⟩ := Option.isSome_iff_exists.mp hvd
  obtain ⟨snap, hs2⟩ := Option.isSome_iff_exists.mp hs
  by_cases hsz : vd.fb.width ≠ v.width ∨ vd.fb.height ≠ v.height
  · simp only [Renderer.handle_view_dirty, hvd2, if_pos hsz, hs2,
      Resources.get_snapshot_rect, ViewData.new]
    refine ⟨_, rfl, rfl, ?_⟩
    intro k
    by_cases hk : k = v.id
    · subst hk
      rw [lookupKey_insertKey_self]
      simp [hvd2]
    · rw [lookupKey_insertKey_ne _ _ _ _ hk]
  · by_cases hdm : v.is_damaged = true
    · simp only [Renderer.handle_view_dirty, hvd2, if_neg hsz, hdm, hs2,
        if_true]
      refine ⟨_, rfl, rfl, ?_⟩
      intro k
      by_cases hk : k = v.id
      · subst hk
        rw [lookupKey_insertKey_self]
        simp [hvd2]
      · rw [lookupKey_insertKey_ne _ _ _ _ hk]
    · have hdm2 : v.is_damaged = false := by
        cases h2 : v.is_damaged
        · rfl
        · exact absurd h2 hdm
      simp only [Renderer.handle_view_dirty, hvd2, if_neg hsz, hdm2,
        Bool.false_eq_true, if_false]
      exact ⟨r, rfl, rfl, fun k => Iff.rfl⟩

theorem add_view_ok_of (r : Renderer) (id : ViewId)
    (hs : (r.resources.get_snapshot id).isSome = true) :
    ∃ r2, r.add_view id = .ok r2 ∧ r2.resources = r.resources ∧
      (∀ k, (lookupKey k r2.view_data).isSome = true ↔
        (k = id ∨ (lookupKey k r.view_data).isSome = true)) := by
  obtain ⟨snap, hs2⟩ := Option.isSome_iff_exists.mp hs
  simp only [Renderer.add_view, hs2, ViewData.new]
  refine ⟨_, rfl, rfl, ?_⟩
  intro k
  by_cases hk : k = id
  · subst hk
    rw [lookupKey_insertKey_self]
    simp
  · rw [lookupKey_insertKey_ne _ _ _ _ hk]
    simp [hk]

/-- The set of view ids with GPU resources after one effect: `ViewAdded`
creates, `ViewRemoved` destroys, everything else preserves. -/
def keys_after (keys : List ViewId) : Effect → List ViewId
  | .viewAdded id => id :: keys
  | .viewRemoved id => keys.filter fun k => k != id
  | _ => keys

/-- The ordering guarantee of spec section 4.2, as a predicate on an
effect sequence relative to the session's view manager, the resource
manager, and the set of views that currently have GPU resources: every
added view has a snapshot, and every touched or damaged view has GPU
resources, a session view, and a snapshot at the point its effect is
processed. -/
def effects_ordered (vm : ViewManager) (rs : Resources) :
    List ViewId → List Effect → Bool
  | _, [] => true
  | keys, e :: rest =>
      (match e with
       | .viewAdded id => (rs.get_snapshot id).isSome
       | .viewTouched id | .viewDamaged id =>
           decide (id ∈ keys) && (lookupKey id vm).isSome &&
             (rs.get_snapshot id).isSome
       | _ => true) && effects_ordered vm rs (keys_after keys e) rest

theorem handle_effects_ok_of_ordered (vm : ViewManager) (rs : Resources)
    (es : List Effect) (r : Renderer) (keys : List ViewId)
    (hcoh : ∀ p ∈ vm, (p : ViewId × View).2.id = p.1)
    (hres : r.resources = rs)
    (hinv : ∀ k, (lookupKey k r.view_data).isSome = true ↔ k ∈ keys)
    (hord : effects_ordered vm rs keys es = true) :
    ∃ r2, r.handle_effects vm es = .ok r2 := by
  induction es generalizing r keys with
  | nil => exact ⟨r, rfl⟩
  | cons e rest ih =>
      cases e with
      | sessionResized w h =>
          simp only [effects_ordered, keys_after, Bool.true_and] at hord
          simp only [Renderer.handle_effects, Renderer.handle_effect]
          exact ih _ keys
            (by simpa [Renderer.handle_resized, Renderer.handle_scaled]
              using hres)
            (by simpa [Renderer.handle_resized, Renderer.handle_scaled]
              using hinv)
            hord
      | sessionScaled sc =>
          simp only [effects_ordered, keys_after, Bool.true_and] at hord
          simp only [Renderer.handle_effects, Renderer.handle_effect]
          exact ih _ keys
            (by simpa [Renderer.handle_scaled] using hres)
            (by simpa [Renderer.handle_scaled] using hinv)
            hord
      | viewActivated id =>
          simp only [effects_ordered, keys_after, Bool.true_and] at hord
          simp only [Renderer.handle_effects, Renderer.handle_effect]
          exact ih _ keys hres hinv hord
      | viewAdded id =>
          simp only [effects_ordered, keys_after, Bool.and_eq_true] at hord
          obtain ⟨hsnap, htail⟩ := hord
          obtain ⟨r2, hok, hres2, hkeys2⟩ :=
            add_view_ok_of r id (by rw [hres]; exact hsnap)
          simp only [Renderer.handle_effects, Renderer.handle_effect, hok]
          refine ih r2 (id :: keys) (hres2.trans hres) ?_ htail
          intro k
          rw [hkeys2 k, hinv k]
          simp [List.mem_cons]
      | viewRemoved id =>
          simp only [effects_ordered, keys_after, Bool.true_and] at hord
          simp only [Renderer.handle_effects, Renderer.handle_effect]
          refine ih _ (keys.filter fun k => k != id) hres ?_ hord
          intro k
          simp only [lookupKey_removeKey]
          by_cases hk : k = id
          · subst hk
            simp [List.mem_filter]
          · simp [hk, hinv k, List.mem_filter]
      | viewTouched id =>
          simp only [effects_ordered, keys_after, Bool.and_eq_true,
            decide_eq_true_eq] at hord
          obtain ⟨⟨⟨hmem, hvmS⟩, hsnap⟩, htail⟩ := hord
          obtain ⟨v2, hvm2⟩ := Option.isSome_iff_exists.mp hvmS
          have hid : v2.id = id := hcoh _ (lookupKey_mem _ _ _ hvm2)
          obtain ⟨r2, hok, hres2, hkeys2⟩ :=
            handle_view_dirty_ok_of r v2
              (by rw [hid]; exact (hinv id).mpr hmem)
              (by rw [hid, hres]; exact hsnap)
          simp only [Renderer.handle_effects, Renderer.handle_effect, hvm2,
            hok]
          exact ih r2 keys (hres2.trans hres)
            (fun k => (hkeys2 k).trans (hinv k)) htail
      | viewDamaged id =>
          simp only [effects_ordered, keys_after, Bool.and_eq_true,
            decide_eq_true_eq] at hord
          obtain ⟨⟨⟨hmem, hvmS⟩, hsnap⟩, htail⟩ := hord
          obtain ⟨v2, hvm2⟩ := Option.isSome_iff_exists.mp hvmS
          have hid : v2.id = id := hcoh _ (lookupKey_mem _ _ _ hvm2)
          obtain ⟨r2, hok, hres2, hkeys2⟩ :=
            handle_view_dirty_ok_of r v2
              (by rw [hid]; exact (hinv id).mpr hmem)
              (by rw [hid, hres]; exact hsnap)
          simp only [Renderer.handle_effects, Renderer.handle_effect, hvm2,
            hok]
          exact ih r2 keys (hres2.trans hres)
            (fun k => (hkeys2 k).trans (hinv k)) htail
      | viewBlendingChanged b =>
          simp only [effects_ordered, keys_after, Bool.true_and] at hord
          simp only [Renderer.handle_effects, Renderer.handle_effect]
          exact ih _ keys hres hinv hord
      | viewPaintDraft shapes =>
          simp only [effects_ordered, keys_after, Bool.true_and] at hord
          simp only [Renderer.handle_effects, Renderer.handle_effect]
          exact ih _ keys hres hinv hord
      | viewPaintFinal shapes =>
          simp only [effects_ordered, keys_after, Bool.true_and] at hord
          simp only [Renderer.handle_effects, Renderer.handle_effect]
          exact ih _ keys hres hinv hord

/-- C7: a `ViewTouched` or `ViewDamaged` effect whose view has no entry in
the renderer's view-data map is a fatal programming-invariant violation —
`handle_effects` panics with no recovery — and under the section-4.2
ordering guarantee (every added view has a snapshot; every touched or
damaged view currently has GPU resources, a session view, and a snapshot)
this failure branch is unreachable: effect handling always succeeds. -/
theorem C7_missing_view_data_is_fatal
    (r : Renderer) (vm : ViewManager) (id : ViewId) (v : View)
    (hvm : lookupKey id vm = some v)
    (hnd : lookupKey v.id r.view_data = none) :
    r.handle_effect vm (Effect.viewTouched id) =
      .error "views must have associated view data" ∧
    r.handle_effect vm (Effect.viewDamaged id) =
      .error "views must have associated view data" ∧
    (∀ (vm2 : ViewManager) (rs : Resources) (r0 : Renderer)
      (keys : List ViewId) (es : List Effect),
      (∀ p ∈ vm2, (p : ViewId × View).2.id = p.1) →
      r0.resources = rs →
      (∀ k, (lookupKey k r0.view_data).isSome = true ↔ k ∈ keys) →
      effects_ordered vm2 rs keys es = true →
      ∃ r2, r0.handle_effects vm2 es = .ok r2) :=
  ⟨by simp only [Renderer.handle_effect, hvm, Renderer.handle_view_dirty, hnd],
   by simp only [Renderer.handle_effect, hvm, Renderer.handle_view_dirty, hnd],
   fun vm2 rs r0 keys es hcoh hres hinv hord =>
     handle_effects_ok_of_ordered vm2 rs es r0 keys hcoh hres hinv hord⟩

/-- A session view fixture with id 3, for which the renderer has no data. -/
def view3 : View := ⟨3, 4, 4, false, false, []⟩

/-- A view-manager fixture holding only `view3`. -/
def vm3 : ViewManager := [(3, view3)]

/-- Witness for C7: touching view 3 (no GPU data) panics, while an ordered
effect sequence over view 0 succeeds end to end. -/
theorem C7_missing_view_data_is_fatal_witness :
    lookupKey 3 vm3 = some view3 ∧
    lookupKey view3.id renderer0.view_data = none ∧
    renderer0.handle_effect vm3 (Effect.viewTouched 3) =
      .error "views must have associated view data" ∧
    renderer0.handle_effect vm3 (Effect.viewDamaged 3) =
      .error "views must have associated view data" ∧
    effects_ordered session_running.views renderer0.resources [0]
      [Effect.viewTouched 0, Effect.viewPaintDraft [1],
        Effect.viewRemoved 0] = true ∧
    (∃ r2, renderer0.handle_effects session_running.views
      [Effect.viewTouched 0, Effect.viewPaintDraft [1],
        Effect.viewRemoved 0] = .ok r2) := by
  have h := C7_missing_view_data_is_fatal renderer0 vm3 3 view3 rfl rfl
  have hinv : ∀ k, (lookupKey k renderer0.view_data).isSome = true ↔
      k ∈ [(0 : ViewId)] := by
    intro k
    by_cases hk : k = 0
    · subst hk
      simp [renderer0, lookupKey]
    · have h0 : (0 : ViewId) ≠ k := fun hc => hk hc.symm
      simp [renderer0, lookupKey, h0, hk]
  exact ⟨rfl, rfl, h.1, h.2.1, by decide,
    h.2.2 session_running.views renderer0.resources renderer0 [0]
      [Effect.viewTouched 0, Effect.viewPaintDraft [1], Effect.viewRemoved 0]
      (by decide) rfl hinv (by decide)⟩
